import Mathlib

/-!
# TinyGsmGPRS: SIM-card and GPRS operations of the TinyGSM driver

A shallow embedding of `src/TinyGsmGPRS.tpp`.  The class template `TinyGsmGPRS<modemType>`
composes a handful of modem primitives (`sendAT`, `waitResponse`, the stream readers,
`millis`, `delay`, `localIP`) that the modem type and the Arduino core supply.  Those
primitives are not part of the translated unit; they are modelled below on an explicit modem
state that also records a trace of every primitive call, so that statements such as "exactly
one command is sent" can be written down.  The `...Impl` functions are transcribed from the
source line by line.

Conventions of the embedding:

* Command bodies and terminators are `String`s; inbound bytes and the texts read from them
  (the Arduino `String` and `std::string` results) are `List Char`.
* `waitResponse` returns the match index as an `int8_t` (carried as `Int`), so storing it in
  `int8_t status` keeps its value.  `streamGetIntBefore` returns a wider signed integer (it
  reads multi-digit decimal text and has an out-of-band failure value), so storing it in
  `int8_t res` narrows it; the narrowing is `toInt8`.
* The clock is unbounded true time in milliseconds; `millis()` is its value modulo 2^32.
  Clock time is charged to `waitResponse` (as much as the transport says; the time to
  transmit a command counts into the wait that follows it) and to `delay`.
* The polling loop of `getSimStatusImpl` need not terminate (its exit depends on the clock),
  so it takes fuel: one unit per evaluation of the loop condition.  The default argument
  `timeout_ms = 10000` of the source is an ordinary argument here.
-/

namespace TinyGsm

/-! ## Data model -/

/-- The enumeration `SimStatus` of the source (values 0, 1, 2, 3 in this order). -/
inductive SimStatus
  | SIM_ERROR
  | SIM_READY
  | SIM_LOCKED
  | SIM_ANTITHEFT_LOCKED
  deriving DecidableEq, Repr

/-- Numeric value of a `SimStatus` enumerator, as declared in the source. -/
def SimStatus.toNat : SimStatus → Nat
  | .SIM_ERROR => 0
  | .SIM_READY => 1
  | .SIM_LOCKED => 2
  | .SIM_ANTITHEFT_LOCKED => 3

/-- An IPv4 address `IPAddress(a, b, c, d)`. -/
structure IPAddress where
  a : Nat
  b : Nat
  c : Nat
  d : Nat
  deriving DecidableEq, Repr

/-- One call of a modem primitive, as recorded in the trace. -/
inductive Event
  | sendAT (cmd : String)
  | waitResponse (terminators : List String)
  | delay (ms : Nat)
  | streamSkipUntil (c : Char)
  | readStringUntil (c : Char)
  | streamGetIntBefore (c : Char)
  deriving DecidableEq, Repr

/-- The modem as seen by this unit: the inbound byte stream still to be consumed, the
millisecond clock (unbounded true time; `millis` is its low 32 bits), and the trace of the
primitive calls made so far, oldest first. -/
structure Modem where
  stream : List Char
  clock : Nat
  trace : List Event
  deriving DecidableEq, Repr

/-- What one `waitResponse` call does: the match index it returns (an `int8_t`; 0 is the
no-match sentinel), the inbound bytes left unread after it, and the clock time it took. -/
structure WaitOutcome where
  index : Int
  rest : List Char
  elapsed : Nat

/-- The behaviour of the parts of the modem type that this unit only calls: the response
matcher (it may depend on the terminators asked for and on the whole modem state, including
the trace of what was sent), the address `localIP()` reports, and the value the integer reader
yields for malformed text. -/
structure Transport where
  respond : List String → Modem → WaitOutcome
  localIP : Modem → IPAddress
  intError : Int

/-! ## Primitives of the modem type -/

/-- The line feed character. -/
def NL : Char := Char.ofNat 10

/-- The double quote character. -/
def DQUOTE : Char := Char.ofNat 34

/-- The flash-string wrapper `GF(...)`: the string itself. -/
def GF (s : String) : String := s

/-- Length of a C string; a `const char*` is carried as the characters before its NUL. -/
def strlen (s : String) : Nat := s.length

/-- Modelled from the spec: `sendAT` (declared by the modem type, absent from the unit).
Section 4.1: the arguments are assembled in order into one command line which is written to the
transport.  The trace records the assembled command body. -/
def sendAT (parts : List String) (m : Modem) : Modem :=
  { m with trace := m.trace ++ [Event.sendAT (parts.foldr (fun p acc => p ++ acc) "")] }

/-- Modelled from the spec: `waitResponse` (absent from the unit).  Section 4.2: consumes
inbound bytes until one of the terminators matches or the wait times out and returns the match
index.  The outcome is supplied by the transport; the call is recorded with the terminators
given at the call site (none for the generic wait). -/
def waitResponse (T : Transport) (terminators : List String) (m : Modem) : Int × Modem :=
  let o := T.respond terminators m
  (o.index,
    { stream := o.rest, clock := m.clock + o.elapsed,
      trace := m.trace ++ [Event.waitResponse terminators] })

/-- Bytes of `s` after the first occurrence of `c` (nothing when `c` does not occur). -/
def dropThrough (c : Char) (s : List Char) : List Char :=
  (s.dropWhile (fun x => x != c)).drop 1

/-- Modelled from the spec: `streamSkipUntil` (absent from the unit).  Section 4.3
skip-to-delimiter: discards bytes up to and including the delimiter; reports whether the
delimiter was seen. -/
def streamSkipUntil (c : Char) (m : Modem) : Bool × Modem :=
  (m.stream.contains c,
    { m with stream := dropThrough c m.stream,
             trace := m.trace ++ [Event.streamSkipUntil c] })

/-- Modelled from the spec: `stream.readStringUntil` (Arduino stream, absent from the unit).
Section 4.3 read-line: accumulates bytes until the delimiter and returns them; the delimiter is
consumed and not returned. -/
def readStringUntil (c : Char) (m : Modem) : List Char × Modem :=
  (m.stream.takeWhile (fun x => x != c),
    { m with stream := dropThrough c m.stream,
             trace := m.trace ++ [Event.readStringUntil c] })

/-- The C predicate `isspace`: space, tab, line feed, vertical tab, form feed, carriage
return. -/
def isspace (c : Char) : Bool :=
  c.toNat = 32 || (9 ≤ c.toNat && c.toNat ≤ 13)

/-- Modelled from the spec: `String::trim` (Arduino string, absent from the unit): removes
the leading and the trailing whitespace. -/
def trim (s : List Char) : List Char :=
  ((s.dropWhile isspace).reverse.dropWhile isspace).reverse

/-- Value of a run of decimal digits. -/
def digitsVal (ds : List Char) : Nat :=
  ds.foldl (fun acc d => 10 * acc + (d.toNat - 48)) 0

/-- Whether `ds` is a non-empty run of decimal digits. -/
def isNumber (ds : List Char) : Bool :=
  !ds.isEmpty && ds.all Char.isDigit

/-- Decimal reading of a text: optional surrounding whitespace, optional sign, digits;
anything else is the error value `err`. -/
def parseInt (err : Int) (txt : List Char) : Int :=
  match trim txt with
  | '-' :: ds => if isNumber ds then -((digitsVal ds : Nat) : Int) else err
  | '+' :: ds => if isNumber ds then ((digitsVal ds : Nat) : Int) else err
  | ds => if isNumber ds then ((digitsVal ds : Nat) : Int) else err

/-- Modelled from the spec: `streamGetIntBefore` (absent from the unit).  Section 4.3
read-integer: accumulates bytes until the delimiter and parses them as a signed integer;
malformed or absent numeric text yields the error value. -/
def streamGetIntBefore (T : Transport) (c : Char) (m : Modem) : Int × Modem :=
  (parseInt T.intError (m.stream.takeWhile (fun x => x != c)),
    { m with stream := dropThrough c m.stream,
             trace := m.trace ++ [Event.streamGetIntBefore c] })

/-- Conversion of a signed integer to `int8_t`: reduction modulo 2^8 into -128..127. -/
def toInt8 (v : Int) : Int := (v + 128) % 256 - 128

/-- Modelled from the spec: `millis` (Arduino clock, absent from the unit): the elapsed-time
query, a 32-bit millisecond counter that wraps around. -/
def millis (m : Modem) : Nat := m.clock % 2 ^ 32

/-- Modelled from the spec: `delay` (Arduino, absent from the unit): sleeps for `ms`
milliseconds. -/
def delay (ms : Nat) (m : Modem) : Modem :=
  { m with clock := m.clock + ms, trace := m.trace ++ [Event.delay ms] }

/-- Subtraction of two `uint32_t` values. -/
def sub32 (x y : Nat) : Nat := (x % 2 ^ 32 + 2 ^ 32 - y % 2 ^ 32) % 2 ^ 32

/-- Conversion `String::c_str()` into a `std::string`: the characters before the first NUL. -/
def c_str (s : List Char) : List Char := s.takeWhile (fun x => x != Char.ofNat 0)

/-! ## The operations of `TinyGsmGPRS` -/

/-- Source `simUnlockImpl`: unlocks a SIM via `AT+CPIN`. -/
def simUnlockImpl (T : Transport) (pin : Option String) (m : Modem) : Bool × Modem :=
  match pin with
  | some p =>
    if strlen p > 0 then
      let m1 := sendAT [GF "+CPIN=\"", p, GF "\""] m
      let r := waitResponse T [] m1
      (r.1 == 1, r.2)
    else (true, m)
  | none => (true, m)

/-- Source `getSimCCIDImpl`: the CCID of the SIM card via `AT+CCID`.  The call of `trim` is
commented out in the source, and the result passes through `c_str()`. -/
def getSimCCIDImpl (T : Transport) (m : Modem) : List Char × Modem :=
  let m1 := sendAT [GF "+CCID"] m
  let r := waitResponse T [GF "+CCID:"] m1
  if r.1 != 1 then ([], r.2)
  else
    let s := readStringUntil NL r.2
    let res := c_str s.1
    let w := waitResponse T [] s.2
    (res, w.2)

/-- Source `getIMEIImpl`: the IMEI via `AT+GSN`. -/
def getIMEIImpl (T : Transport) (m : Modem) : List Char × Modem :=
  let m1 := sendAT [GF "+GSN"] m
  let k := streamSkipUntil NL m1
  let s := readStringUntil NL k.2
  let w := waitResponse T [] s.2
  (trim s.1, w.2)

/-- Source `getIMSIImpl`: the IMSI via `AT+CIMI`. -/
def getIMSIImpl (T : Transport) (m : Modem) : List Char × Modem :=
  let m1 := sendAT [GF "+CIMI"] m
  let k := streamSkipUntil NL m1
  let s := readStringUntil NL k.2
  let w := waitResponse T [] s.2
  (trim s.1, w.2)

/-- The `switch (status)` of `getSimStatusImpl`. -/
def simStatusOf (status : Int) : SimStatus :=
  if status = 2 then .SIM_LOCKED
  else if status = 3 then .SIM_LOCKED
  else if status = 1 then .SIM_READY
  else .SIM_ERROR

/-- The `for` loop of `getSimStatusImpl`, entered with `start` already read.  Each unit of
`fuel` pays for one evaluation of the loop condition; `none` means the fuel ran out. -/
def getSimStatusLoop (T : Transport) (timeout_ms start : Nat) :
    Nat → Modem → Option (SimStatus × Modem)
  | 0, _ => none
  | fuel + 1, m =>
    if sub32 (millis m) start < timeout_ms then
      let m1 := sendAT [GF "+CPIN?"] m
      let r := waitResponse T [GF "+CPIN:"] m1
      if r.1 != 1 then
        getSimStatusLoop T timeout_ms start fuel (delay 1000 r.2)
      else
        let s := waitResponse T
          [GF "READY", GF "SIM PIN", GF "SIM PUK", GF "NOT INSERTED", GF "NOT READY"] r.2
        let w := waitResponse T [] s.2
        some (simStatusOf s.1, w.2)
    else some (.SIM_ERROR, m)

/-- Source `getSimStatusImpl`: polls `AT+CPIN?` until the deadline. -/
def getSimStatusImpl (T : Transport) (timeout_ms : Nat) (fuel : Nat) (m : Modem) :
    Option (SimStatus × Modem) :=
  getSimStatusLoop T timeout_ms (millis m) fuel m

/-- The retry path of the loop body of `getSimStatusImpl`: the command `+CPIN?`, the
prompt-echo wait and the backoff `delay(1000)`.  `(failedPoll T)^[k] m` is the modem at the
loop head after `k` polls that did not see the prompt echo. -/
def failedPoll (T : Transport) (m : Modem) : Modem :=
  delay 1000 (waitResponse T [GF "+CPIN:"] (sendAT [GF "+CPIN?"] m)).2

/-- Source `isGprsConnectedImpl`: whether the modem is attached to the GPRS/EPS service. -/
def isGprsConnectedImpl (T : Transport) (m : Modem) : Bool × Modem :=
  let m1 := sendAT [GF "+CGATT?"] m
  let r := waitResponse T [GF "+CGATT:"] m1
  if r.1 != 1 then (false, r.2)
  else
    let g := streamGetIntBefore T NL r.2
    let res := toInt8 g.1
    let w := waitResponse T [] g.2
    if res != 1 then (false, w.2)
    else (T.localIP w.2 != IPAddress.mk 0 0 0 0, w.2)

/-- Source `getOperatorImpl`: the current network operator via `AT+COPS`. -/
def getOperatorImpl (T : Transport) (m : Modem) : List Char × Modem :=
  let m1 := sendAT [GF "+COPS?"] m
  let r := waitResponse T [GF "+COPS:"] m1
  if r.1 != 1 then ([], r.2)
  else
    let k := streamSkipUntil DQUOTE r.2
    let s := readStringUntil DQUOTE k.2
    let w := waitResponse T [] s.2
    (s.1, w.2)

/-- Public `simUnlock`: forwards to `simUnlockImpl`. -/
def simUnlock (T : Transport) (pin : Option String) (m : Modem) : Bool × Modem :=
  simUnlockImpl T pin m

/-- Public `getSimCCID`: forwards to `getSimCCIDImpl`. -/
def getSimCCID (T : Transport) (m : Modem) : List Char × Modem := getSimCCIDImpl T m

/-- Public `getIMEI`: forwards to `getIMEIImpl`. -/
def getIMEI (T : Transport) (m : Modem) : List Char × Modem := getIMEIImpl T m

/-- Public `getIMSI`: forwards to `getIMSIImpl`. -/
def getIMSI (T : Transport) (m : Modem) : List Char × Modem := getIMSIImpl T m

/-- Public `getSimStatus`: forwards to `getSimStatusImpl`. -/
def getSimStatus (T : Transport) (timeout_ms : Nat) (fuel : Nat) (m : Modem) :
    Option (SimStatus × Modem) :=
  getSimStatusImpl T timeout_ms fuel m

/-- Public `isGprsConnected`: forwards to `isGprsConnectedImpl`. -/
def isGprsConnected (T : Transport) (m : Modem) : Bool × Modem := isGprsConnectedImpl T m

/-- Public `getOperator`: forwards to `getOperatorImpl`. -/
def getOperator (T : Transport) (m : Modem) : List Char × Modem := getOperatorImpl T m

/-! ## Simulated transports used in the examples -/

/-- The unspecified address `IPAddress(0, 0, 0, 0)`. -/
def ip0 : IPAddress := ⟨0, 0, 0, 0⟩

/-- A modem with the given inbound bytes, clock 0 and empty trace. -/
def freshModem (rx : List Char) : Modem := { stream := rx, clock := 0, trace := [] }

/-- A transport whose every wait returns `idx` after `d` ms and leaves the stream alone. -/
def constTransport (idx : Int) (d : Nat) (ip : IPAddress) : Transport :=
  { respond := fun _ m => { index := idx, rest := m.stream, elapsed := d },
    localIP := fun _ => ip,
    intError := -9999 }

/-- Bytes after the first occurrence of `pat` in `s`, when it occurs. -/
def findAfter (pat : List Char) : List Char → Option (List Char)
  | [] => if pat.isEmpty then some [] else none
  | c :: s =>
    if pat.isPrefixOf (c :: s) then some ((c :: s).drop pat.length) else findAfter pat s

/-- The first terminator of the list that occurs in `s`, as its position counted from `i`,
with the bytes after the occurrence. -/
def firstMatch (s : List Char) : List String → Int → Option (Int × List Char)
  | [], _ => none
  | t :: ts, i =>
    match findAfter t.toList s with
    | some rest => some (i, rest)
    | none => firstMatch s ts (i + 1)

/-- A simulated transport that scans the inbound bytes for the terminators in their listed
order (`OK`, `ERROR` for the generic wait), consumes the input through the match, and on no
match times out after 1000 ms with the input consumed. -/
def scanTransport (ip : IPAddress) : Transport :=
  { respond := fun ts m =>
      match firstMatch m.stream (if ts.isEmpty then ["OK", "ERROR"] else ts) 1 with
      | some (i, rest) => { index := i, rest := rest, elapsed := 0 }
      | none => { index := 0, rest := [], elapsed := 1000 },
    localIP := fun _ => ip,
    intError := -9999 }

/-- A modem that is still starting up at the first poll: the prompt-echo wait fails (index 0)
while the trace holds only the first command and returns 1 afterwards; the state-literal wait
returns `idx`; every wait takes 20 ms. -/
def bootTransport (idx : Int) : Transport :=
  { respond := fun ts m =>
      { index := if ts.length = 5 then idx else if m.trace.length ≤ 1 then 0 else 1,
        rest := m.stream, elapsed := 20 },
    localIP := fun _ => ip0,
    intError := -9999 }

/-! ## Auxiliary facts -/

theorem sub32_elapsed (c e : Nat) (he : e < 2 ^ 32) :
    sub32 ((c + e) % 2 ^ 32) (c % 2 ^ 32) = e := by
  unfold sub32
  norm_num
  omega

theorem sub32_self (x : Nat) : sub32 x x = 0 := by
  unfold sub32
  norm_num

theorem strlen_pos_of_ne (p : String) (h : p ≠ "") : 0 < strlen p := by
  unfold strlen
  rcases Nat.eq_zero_or_pos p.length with h0 | h0
  · exfalso
    apply h
    apply String.ext
    exact List.length_eq_zero.mp (h0 : p.data.length = 0)
  · exact h0

theorem takeWhile_ne_split (c : Char) (pre post : List Char) (h : c ∉ pre) :
    (pre ++ c :: post).takeWhile (fun x => x != c) = pre := by
  induction pre with
  | nil => simp
  | cons a t ih =>
    simp only [List.mem_cons, not_or] at h
    have ha : (a != c) = true := by simpa using fun e => h.1 e.symm
    simp [List.takeWhile_cons, ha, ih h.2]

theorem dropThrough_split (c : Char) (pre post : List Char) (h : c ∉ pre) :
    dropThrough c (pre ++ c :: post) = post := by
  unfold dropThrough
  induction pre with
  | nil => simp
  | cons a t ih =>
    simp only [List.mem_cons, not_or] at h
    have ha : (a != c) = true := by simpa using fun e => h.1 e.symm
    simp [List.dropWhile_cons, ha, ih h.2]

theorem dropThrough_of_not_mem (c : Char) (s : List Char) (h : c ∉ s) :
    dropThrough c s = [] := by
  unfold dropThrough
  induction s with
  | nil => simp
  | cons a t ih =>
    simp only [List.mem_cons, not_or] at h
    have ha : (a != c) = true := by simpa using fun e => h.1 e.symm
    simp [List.dropWhile_cons, ha, ih h.2]

theorem trim_split (s : List Char) :
    ∃ a b, s = a ++ trim s ++ b ∧ (∀ x ∈ a, isspace x = true) ∧ (∀ x ∈ b, isspace x = true) := by
  refine ⟨s.takeWhile isspace,
    (((s.dropWhile isspace).reverse).takeWhile isspace).reverse, ?_, ?_, ?_⟩
  · unfold trim
    rw [List.append_assoc, ← List.reverse_append, List.takeWhile_append_dropWhile,
      List.reverse_reverse, List.takeWhile_append_dropWhile]
  · intro x hx
    exact List.mem_takeWhile_imp hx
  · intro x hx
    exact List.mem_takeWhile_imp (List.mem_reverse.mp hx)

theorem trim_getLast (s : List Char) (x : Char) (h : (trim s).getLast? = some x) :
    isspace x = false := by
  unfold trim at h
  rw [List.getLast?_reverse] at h
  have := List.head?_dropWhile_not isspace (s.dropWhile isspace).reverse
  rw [h] at this
  simpa using this

theorem trim_head (s : List Char) (x : Char) (h : (trim s).head? = some x) :
    isspace x = false := by
  have hab : s.dropWhile isspace
      = trim s ++ (((s.dropWhile isspace).reverse).takeWhile isspace).reverse := by
    unfold trim
    rw [← List.reverse_append, List.takeWhile_append_dropWhile, List.reverse_reverse]
  have hh : (s.dropWhile isspace).head? = some x := by
    rw [hab, List.head?_append, h]
    rfl
  have := List.head?_dropWhile_not isspace s
  rw [hh] at this
  simpa using this

/-! ## One turn of the polling loop -/

theorem loop_exit (T : Transport) (timeout_ms start fuel : Nat) (m : Modem)
    (h : ¬ sub32 (millis m) start < timeout_ms) :
    getSimStatusLoop T timeout_ms start (fuel + 1) m = some (SimStatus.SIM_ERROR, m) := by
  rw [getSimStatusLoop, if_neg h]

theorem loop_retry (T : Transport) (timeout_ms start fuel : Nat) (m : Modem)
    (h : sub32 (millis m) start < timeout_ms)
    (hr : (waitResponse T ["+CPIN:"] (sendAT ["+CPIN?"] m)).1 ≠ 1) :
    getSimStatusLoop T timeout_ms start (fuel + 1) m
      = getSimStatusLoop T timeout_ms start fuel
          (delay 1000 (waitResponse T ["+CPIN:"] (sendAT ["+CPIN?"] m)).2) := by
  rw [getSimStatusLoop, if_pos h]
  simp only [GF]
  rw [if_pos (by simpa using hr)]

theorem loop_answer (T : Transport) (timeout_ms start fuel : Nat) (m : Modem)
    (h : sub32 (millis m) start < timeout_ms)
    (hr : (waitResponse T ["+CPIN:"] (sendAT ["+CPIN?"] m)).1 = 1) :
    getSimStatusLoop T timeout_ms start (fuel + 1) m
      = some (simStatusOf
            (waitResponse T ["READY", "SIM PIN", "SIM PUK", "NOT INSERTED", "NOT READY"]
              (waitResponse T ["+CPIN:"] (sendAT ["+CPIN?"] m)).2).1,
          (waitResponse T []
            (waitResponse T ["READY", "SIM PIN", "SIM PUK", "NOT INSERTED", "NOT READY"]
              (waitResponse T ["+CPIN:"] (sendAT ["+CPIN?"] m)).2).2).2) := by
  rw [getSimStatusLoop, if_pos h]
  simp only [GF]
  rw [if_neg (by simp [hr])]

theorem loop_no_echo (T : Transport) (timeout_ms D c0 : Nat)
    (hne : ∀ m, (T.respond ["+CPIN:"] m).index ≠ 1)
    (hD : ∀ m, (T.respond ["+CPIN:"] m).elapsed ≤ D)
    (hfit : timeout_ms + 1000 + D ≤ 2 ^ 32) :
    ∀ (fuel : Nat) (m : Modem), c0 ≤ m.clock → m.clock < c0 + timeout_ms + 1000 + D →
      c0 + timeout_ms ≤ m.clock + 1000 * fuel →
      ∃ m', getSimStatusLoop T timeout_ms (c0 % 2 ^ 32) (fuel + 1) m
          = some (SimStatus.SIM_ERROR, m')
        ∧ c0 + timeout_ms ≤ m'.clock ∧ m'.clock < c0 + timeout_ms + 1000 + D := by
  intro fuel
  induction fuel with
  | zero =>
    intro m h0 h1 h2
    obtain ⟨e, he⟩ : ∃ e, m.clock = c0 + e := ⟨m.clock - c0, by omega⟩
    have hs : sub32 (millis m) (c0 % 2 ^ 32) = e := by
      unfold millis; rw [he]; exact sub32_elapsed c0 e (by omega)
    exact ⟨m, loop_exit T _ _ _ m (by rw [hs]; omega), by omega, h1⟩
  | succ f ih =>
    intro m h0 h1 h2
    obtain ⟨e, he⟩ : ∃ e, m.clock = c0 + e := ⟨m.clock - c0, by omega⟩
    have hs : sub32 (millis m) (c0 % 2 ^ 32) = e := by
      unfold millis; rw [he]; exact sub32_elapsed c0 e (by omega)
    by_cases hlt : e < timeout_ms
    · have hr : (waitResponse T ["+CPIN:"] (sendAT ["+CPIN?"] m)).1 ≠ 1 := by
        simpa [waitResponse] using hne _
      have hd := hD (sendAT ["+CPIN?"] m)
      have hclock : (delay 1000 (waitResponse T ["+CPIN:"] (sendAT ["+CPIN?"] m)).2).clock
          = m.clock + (T.respond ["+CPIN:"] (sendAT ["+CPIN?"] m)).elapsed + 1000 := by
        simp [delay, waitResponse, sendAT]
      obtain ⟨m', hm', hlo, hhi⟩ :=
        ih (delay 1000 (waitResponse T ["+CPIN:"] (sendAT ["+CPIN?"] m)).2)
          (by omega) (by omega) (by omega)
      refine ⟨m', ?_, hlo, hhi⟩
      rw [loop_retry T _ _ _ m (by rw [hs]; exact hlt) hr]
      exact hm'
    · exact ⟨m, loop_exit T _ _ _ m (by rw [hs]; exact hlt), by omega, h1⟩

theorem failedPoll_clock (T : Transport) (m : Modem) : m.clock ≤ (failedPoll T m).clock := by
  simp [failedPoll, delay, waitResponse, sendAT]
  omega

theorem failedPolls_clock (T : Transport) (k : Nat) :
    ∀ (m : Modem), m.clock ≤ ((failedPoll T)^[k] m).clock := by
  induction k with
  | zero => intro m; exact le_refl _
  | succ k ih =>
    intro m
    rw [Function.iterate_succ_apply]
    exact le_trans (failedPoll_clock T m) (ih (failedPoll T m))

theorem failedPolls_clock_mono (T : Transport) (j k : Nat) (m : Modem) (h : j ≤ k) :
    ((failedPoll T)^[j] m).clock ≤ ((failedPoll T)^[k] m).clock := by
  obtain ⟨d, rfl⟩ : ∃ d, k = d + j := ⟨k - j, by omega⟩
  rw [Function.iterate_add_apply]
  exact failedPolls_clock T d _

theorem loop_skip (T : Transport) (timeout_ms start fuel : Nat) (k : Nat) :
    ∀ (m : Modem),
      (∀ j < k, sub32 (millis ((failedPoll T)^[j] m)) start < timeout_ms
        ∧ (waitResponse T ["+CPIN:"] (sendAT ["+CPIN?"] ((failedPoll T)^[j] m))).1 ≠ 1) →
      getSimStatusLoop T timeout_ms start (k + 1 + fuel) m
        = getSimStatusLoop T timeout_ms start (fuel + 1) ((failedPoll T)^[k] m) := by
  induction k with
  | zero =>
    intro m _
    rw [show 0 + 1 + fuel = fuel + 1 by omega]
    rfl
  | succ k ih =>
    intro m h
    have h0 := h 0 (by omega)
    rw [show k + 1 + 1 + fuel = (k + 1 + fuel) + 1 by omega,
      loop_retry T timeout_ms start (k + 1 + fuel) m h0.1 h0.2, Function.iterate_succ_apply]
    exact ih (failedPoll T m) (fun j hj => by
      have := h (j + 1) (by omega)
      rwa [Function.iterate_succ_apply] at this)

theorem sub32_failedPolls (T : Transport) (j k : Nat) (m : Modem) (hjk : j ≤ k)
    (hlt : ((failedPoll T)^[k] m).clock < m.clock + 2 ^ 32) :
    sub32 (millis ((failedPoll T)^[j] m)) (millis m) = ((failedPoll T)^[j] m).clock - m.clock := by
  have h1 := failedPolls_clock T j m
  have h2 := failedPolls_clock_mono T j k m hjk
  obtain ⟨e, he⟩ : ∃ e, ((failedPoll T)^[j] m).clock = m.clock + e :=
    ⟨((failedPoll T)^[j] m).clock - m.clock, by omega⟩
  unfold millis
  rw [he, sub32_elapsed m.clock e (by omega)]
  omega

theorem loop_forever (fuel : Nat) : ∀ (m : Modem), m.clock % 8 = 0 →
    getSimStatusLoop (constTransport 0 0 ip0) (2 ^ 32 - 1) 0 fuel m = none := by
  induction fuel with
  | zero => intro m _; rfl
  | succ f ih =>
    intro m hm
    have hopen : sub32 (millis m) 0 < 2 ^ 32 - 1 := by
      unfold sub32 millis; norm_num; omega
    rw [loop_retry _ _ _ _ m hopen (by simp [waitResponse, constTransport])]
    apply ih
    simp [delay, waitResponse, constTransport, sendAT]
    omega

/-! ## Properties of the operations -/

/-- C1: in every exchange of `getSimStatus` in which the prompt-echo wait returns 1, the result
of the call depends only on the index `idx` returned by the following wait on READY, SIM PIN,
SIM PUK, NOT INSERTED, NOT READY.  Whenever the first `k` polls pass the deadline test and
miss the prompt echo, and poll `k + 1` passes the deadline test and its prompt-echo wait
returns 1, `getSimStatus` returns (with fuel for `k + 1` or more loop tests): `SIM_LOCKED`
for `idx` 2 or 3, `SIM_READY` for `idx` 1, `SIM_ERROR` for every other value. -/
theorem getSimStatus_result_mapping (T : Transport) (timeout_ms k fuel : Nat) (m : Modem)
    (idx : Int)
    (hfail : ∀ j < k, sub32 (millis ((failedPoll T)^[j] m)) (millis m) < timeout_ms
      ∧ (waitResponse T ["+CPIN:"] (sendAT ["+CPIN?"] ((failedPoll T)^[j] m))).1 ≠ 1)
    (hopen : sub32 (millis ((failedPoll T)^[k] m)) (millis m) < timeout_ms)
    (hecho : (waitResponse T ["+CPIN:"] (sendAT ["+CPIN?"] ((failedPoll T)^[k] m))).1 = 1)
    (hidx : (waitResponse T ["READY", "SIM PIN", "SIM PUK", "NOT INSERTED", "NOT READY"]
      (waitResponse T ["+CPIN:"] (sendAT ["+CPIN?"] ((failedPoll T)^[k] m))).2).1 = idx) :
    (getSimStatus T timeout_ms (k + 1 + fuel) m).map Prod.fst
      = some (if idx = 2 ∨ idx = 3 then SimStatus.SIM_LOCKED
              else if idx = 1 then SimStatus.SIM_READY else SimStatus.SIM_ERROR) := by
  subst hidx
  unfold getSimStatus getSimStatusImpl
  rw [loop_skip T timeout_ms (millis m) fuel k m hfail,
    loop_answer T timeout_ms (millis m) fuel _ hopen hecho]
  simp only [Option.map_some', simStatusOf]
  split_ifs <;> simp_all

/-- Witness for C1: the first poll misses the prompt echo, the second one sees it and the SIM
answers SIM PIN (index 2): the call reports the SIM locked. -/
theorem getSimStatus_result_mapping_witness :
    (getSimStatus (bootTransport 2) 10000 (1 + 1 + 0) (freshModem [])).map Prod.fst
      = some (if (2 : Int) = 2 ∨ (2 : Int) = 3 then SimStatus.SIM_LOCKED
              else if (2 : Int) = 1 then SimStatus.SIM_READY else SimStatus.SIM_ERROR) :=
  getSimStatus_result_mapping (bootTransport 2) 10000 1 0 (freshModem []) 2
    (by decide) (by decide) (by decide) (by decide)

/-- C2: for a null or empty PIN `simUnlock` returns true and leaves the modem state, trace
included, as it was: no `sendAT` and no `waitResponse` is performed, nothing is transmitted. -/
theorem simUnlock_empty_pin (T : Transport) (m : Modem) (pin : Option String)
    (h : pin = none ∨ pin = some "") :
    (simUnlock T pin m).1 = true ∧ (simUnlock T pin m).2 = m := by
  rcases h with h | h <;> subst h <;> simp [simUnlock, simUnlockImpl, strlen]

/-- Witness for C2: the empty PIN on a fresh modem. -/
theorem simUnlock_empty_pin_witness :
    (simUnlock (constTransport 2 0 ip0) (some "") (freshModem [])).1 = true
      ∧ (simUnlock (constTransport 2 0 ip0) (some "") (freshModem [])).2 = freshModem [] :=
  simUnlock_empty_pin (constTransport 2 0 ip0) (freshModem []) (some "") (Or.inr rfl)

/-- C3: for a non-empty PIN `simUnlock` appends to the trace exactly one command, with body
`+CPIN="` then the pin then `"`, followed by exactly one generic wait, and it returns true if
and only if that wait returned index 1; index 2 (error) and index 0 (timeout) give false. -/
theorem simUnlock_nonempty_pin (T : Transport) (m : Modem) (p : String) (h : p ≠ "") :
    (simUnlock T (some p) m).2.trace
        = m.trace ++ [Event.sendAT ("+CPIN=\"" ++ p ++ "\""), Event.waitResponse []]
    ∧ ((simUnlock T (some p) m).1 = true ↔
        (T.respond [] { m with
          trace := m.trace ++ [Event.sendAT ("+CPIN=\"" ++ p ++ "\"")] }).index = 1)
    ∧ ((T.respond [] { m with
          trace := m.trace ++ [Event.sendAT ("+CPIN=\"" ++ p ++ "\"")] }).index = 2
        → (simUnlock T (some p) m).1 = false)
    ∧ ((T.respond [] { m with
          trace := m.trace ++ [Event.sendAT ("+CPIN=\"" ++ p ++ "\"")] }).index = 0
        → (simUnlock T (some p) m).1 = false) := by
  have hp := strlen_pos_of_ne p h
  have hiff : (simUnlock T (some p) m).1 = true ↔
      (T.respond [] { m with
        trace := m.trace ++ [Event.sendAT ("+CPIN=\"" ++ p ++ "\"")] }).index = 1 := by
    simp [simUnlock, simUnlockImpl, hp, sendAT, waitResponse, GF, String.append_assoc]
  refine ⟨?_, hiff, fun h2 => ?_, fun h0 => ?_⟩
  · simp [simUnlock, simUnlockImpl, hp, sendAT, waitResponse, GF, String.append_assoc]
  · cases hb : (simUnlock T (some p) m).1 with
    | false => rfl
    | true => have := hiff.mp hb; omega
  · cases hb : (simUnlock T (some p) m).1 with
    | false => rfl
    | true => have := hiff.mp hb; omega

/-- Witness for C3: PIN 1234 on a modem that answers OK. -/
theorem simUnlock_nonempty_pin_witness :
    (simUnlock (scanTransport ip0) (some "1234") (freshModem "\r\nOK\r\n".toList)).2.trace
        = [Event.sendAT "+CPIN=\"1234\"", Event.waitResponse []]
      ∧ (simUnlock (scanTransport ip0) (some "1234") (freshModem "\r\nOK\r\n".toList)).1 = true :=
  ⟨(simUnlock_nonempty_pin (scanTransport ip0) (freshModem "\r\nOK\r\n".toList) "1234"
      (by decide)).1,
   (simUnlock_nonempty_pin (scanTransport ip0) (freshModem "\r\nOK\r\n".toList) "1234"
      (by decide)).2.1.mpr (by decide)⟩

/-- Supporting fact for C4: what `isGprsConnected` computes.  It returns true exactly when the
wait for `+CGATT:` returned 1, the parsed integer as stored in the `int8_t` variable `res`
equals 1, and `localIP()` is not 0.0.0.0. -/
theorem isGprsConnected_iff (T : Transport) (m : Modem) :
    (isGprsConnected T m).1 = true ↔
      (waitResponse T ["+CGATT:"] (sendAT ["+CGATT?"] m)).1 = 1
      ∧ toInt8 (streamGetIntBefore T NL
          (waitResponse T ["+CGATT:"] (sendAT ["+CGATT?"] m)).2).1 = 1
      ∧ T.localIP (waitResponse T [] (streamGetIntBefore T NL
          (waitResponse T ["+CGATT:"] (sendAT ["+CGATT?"] m)).2).2).2 ≠ IPAddress.mk 0 0 0 0 := by
  unfold isGprsConnected isGprsConnectedImpl
  simp only [GF]
  by_cases h1 : (waitResponse T ["+CGATT:"] (sendAT ["+CGATT?"] m)).1 = 1
  · by_cases h2 : toInt8 (streamGetIntBefore T NL
        (waitResponse T ["+CGATT:"] (sendAT ["+CGATT?"] m)).2).1 = 1
    · simp [h1, h2]
    · simp [h1, h2]
  · simp [h1]

/-- C4 (the code departs from the claim): on the reply `+CGATT: 257` with a non-zero local
address the integer parsed before the newline is 257, not 1, yet `isGprsConnected` returns
true, because the value is narrowed to `int8_t` before the comparison with 1. -/
theorem isGprsConnected_accepts_257 :
    (streamGetIntBefore (scanTransport ⟨10, 0, 0, 1⟩) NL
        (waitResponse (scanTransport ⟨10, 0, 0, 1⟩) ["+CGATT:"]
          (sendAT ["+CGATT?"] (freshModem "\r\n+CGATT: 257\r\n\r\nOK\r\n".toList))).2).1 = 257
    ∧ (isGprsConnected (scanTransport ⟨10, 0, 0, 1⟩)
        (freshModem "\r\n+CGATT: 257\r\n\r\nOK\r\n".toList)).1 = true := by
  decide

/-- C5 (amended): on a transport whose prompt-echo wait never returns 1 and takes at most `D`
ms, with `timeout_ms + 1000 + D ≤ 2^32` and enough fuel, `getSimStatus` returns `SIM_ERROR`
and the clock time elapsed between entry and return is at least `timeout_ms` and less than
`timeout_ms + 1000 + D`. -/
theorem getSimStatus_no_echo_deadline (T : Transport) (timeout_ms D fuel : Nat) (m : Modem)
    (hne : ∀ s, (T.respond ["+CPIN:"] s).index ≠ 1)
    (hD : ∀ s, (T.respond ["+CPIN:"] s).elapsed ≤ D)
    (hfit : timeout_ms + 1000 + D ≤ 2 ^ 32)
    (hfuel : timeout_ms / 1000 + 2 ≤ fuel) :
    ∃ m', getSimStatus T timeout_ms fuel m = some (SimStatus.SIM_ERROR, m')
      ∧ m.clock + timeout_ms ≤ m'.clock ∧ m'.clock < m.clock + timeout_ms + 1000 + D := by
  obtain ⟨f, rfl⟩ : ∃ f, fuel = f + 1 := ⟨fuel - 1, by omega⟩
  exact loop_no_echo T timeout_ms D m.clock hne hD hfit f m (le_refl _) (by omega) (by omega)

/-- Witness for C5 (amended): waits of 250 ms that never match, a timeout of 2500 ms, and a
start 1200 ms before the 32-bit counter wraps. -/
theorem getSimStatus_no_echo_deadline_witness :
    ∃ m', getSimStatus (constTransport 0 250 ip0) 2500 10
        { stream := [], clock := 2 ^ 32 - 1200, trace := [] } = some (SimStatus.SIM_ERROR, m')
      ∧ (2 ^ 32 - 1200) + 2500 ≤ m'.clock ∧ m'.clock < (2 ^ 32 - 1200) + 2500 + 1000 + 250 :=
  getSimStatus_no_echo_deadline (constTransport 0 250 ip0) 2500 250 10
    { stream := [], clock := 2 ^ 32 - 1200, trace := [] }
    (fun _ => show (0 : Int) ≠ 1 by decide) (fun _ => show 250 ≤ 250 by decide)
    (by decide) (by decide)

/-- C5 (as stated, refuted): with failed waits that take 1000 ms each and `timeout_ms = 1`
the call returns `SIM_ERROR` only after 2000 ms, which is more than `timeout_ms + 1000`; and
with instantaneous failed waits and `timeout_ms = 2^32 - 1` the call never returns, whatever
the fuel. -/
theorem getSimStatus_no_echo_deadline_counterexample :
    (∃ m', getSimStatus (constTransport 0 1000 ip0) 1 5 (freshModem [])
          = some (SimStatus.SIM_ERROR, m')
        ∧ m'.clock - (freshModem []).clock = 2000
        ∧ ¬ (m'.clock - (freshModem []).clock ≤ 1 + 1000))
    ∧ (∀ fuel, getSimStatus (constTransport 0 0 ip0) (2 ^ 32 - 1) fuel (freshModem []) = none) := by
  constructor
  · exact ⟨_, rfl, by decide, by decide⟩
  · intro fuel
    exact loop_forever fuel _ rfl

/-- C6: with `timeout_ms > 0` and a first prompt-echo wait that returns 1, `getSimStatus`
returns within one evaluation of the loop condition, whatever the state-literal index: the
trace grows by exactly the command `+CPIN?`, the prompt-echo wait, the state-literal wait and
the generic wait, in this order and with no delay; and when the state-literal index is 1
(READY) the result is `SIM_READY`. -/
theorem getSimStatus_single_iteration (T : Transport) (timeout_ms fuel : Nat) (m : Modem)
    (hpos : 0 < timeout_ms)
    (hecho : (T.respond ["+CPIN:"]
        { m with trace := m.trace ++ [Event.sendAT "+CPIN?"] }).index = 1) :
    ∃ st m', getSimStatus T timeout_ms (fuel + 1) m = some (st, m')
      ∧ m'.trace = m.trace ++ [Event.sendAT "+CPIN?", Event.waitResponse ["+CPIN:"],
          Event.waitResponse ["READY", "SIM PIN", "SIM PUK", "NOT INSERTED", "NOT READY"],
          Event.waitResponse []]
      ∧ ((waitResponse T ["READY", "SIM PIN", "SIM PUK", "NOT INSERTED", "NOT READY"]
            (waitResponse T ["+CPIN:"] (sendAT ["+CPIN?"] m)).2).1 = 1
          → st = SimStatus.SIM_READY) := by
  have hopen : sub32 (millis m) (millis m) < timeout_ms := by rw [sub32_self]; exact hpos
  have hecho2 : (waitResponse T ["+CPIN:"] (sendAT ["+CPIN?"] m)).1 = 1 := by
    simpa [waitResponse, sendAT] using hecho
  refine ⟨_, _, loop_answer T timeout_ms (millis m) fuel m hopen hecho2, ?_, ?_⟩
  · simp [waitResponse, sendAT]
  · intro h
    simp [h, simStatusOf]

/-- Witness for C6: a modem that answers `+CPIN: READY` then `OK`, polled with the default
timeout and fuel for a single evaluation of the loop condition. -/
theorem getSimStatus_single_iteration_witness :
    ∃ st m', getSimStatus (scanTransport ip0) 10000 (0 + 1)
          (freshModem "\r\n+CPIN: READY\r\n\r\nOK\r\n".toList) = some (st, m')
      ∧ m'.trace = (freshModem "\r\n+CPIN: READY\r\n\r\nOK\r\n".toList).trace
          ++ [Event.sendAT "+CPIN?", Event.waitResponse ["+CPIN:"],
          Event.waitResponse ["READY", "SIM PIN", "SIM PUK", "NOT INSERTED", "NOT READY"],
          Event.waitResponse []]
      ∧ ((waitResponse (scanTransport ip0)
            ["READY", "SIM PIN", "SIM PUK", "NOT INSERTED", "NOT READY"]
            (waitResponse (scanTransport ip0) ["+CPIN:"]
              (sendAT ["+CPIN?"] (freshModem "\r\n+CPIN: READY\r\n\r\nOK\r\n".toList))).2).1 = 1
          → st = SimStatus.SIM_READY) :=
  getSimStatus_single_iteration (scanTransport ip0) 10000 0
    (freshModem "\r\n+CPIN: READY\r\n\r\nOK\r\n".toList) (by decide) (by decide)

/-- C10: the deadline test of `getSimStatus` survives clock wrap-around.  (1) If `e < 2^32` ms
have truly elapsed between the reading of `start` (modem state `m0`, any clock value) and the
test (modem state `m`), then `millis() - start` computed modulo 2^32 is below `timeout_ms`
exactly when `e < timeout_ms`.  (2) The call follows the true elapsed time, whatever the
32-bit counter does in between: when less than 2^32 ms have truly elapsed at the loop head
after `k` polls, and each earlier loop head was reached less than `timeout_ms` after entry
and its poll missed the prompt echo, then the call returns `SIM_ERROR` at that loop head,
without a further poll, if at least `timeout_ms` have elapsed, and it polls again if less
than `timeout_ms` have elapsed (returning the status of the state-literal wait when the
prompt echo is seen).  (3) With `timeout_ms = 0` the loop body never runs: the result is
`SIM_ERROR` and the modem state, trace included, is unchanged (no command is sent). -/
theorem getSimStatus_deadline_wraparound :
    (∀ (m0 m : Modem) (e timeout_ms : Nat), m.clock = m0.clock + e → e < 2 ^ 32 →
        (sub32 (millis m) (millis m0) < timeout_ms ↔ e < timeout_ms))
    ∧ (∀ (T : Transport) (timeout_ms k fuel : Nat) (m : Modem),
        ((failedPoll T)^[k] m).clock < m.clock + 2 ^ 32 →
        (∀ j < k, ((failedPoll T)^[j] m).clock < m.clock + timeout_ms
          ∧ (waitResponse T ["+CPIN:"] (sendAT ["+CPIN?"] ((failedPoll T)^[j] m))).1 ≠ 1) →
        (m.clock + timeout_ms ≤ ((failedPoll T)^[k] m).clock →
          getSimStatus T timeout_ms (k + 1 + fuel) m
            = some (SimStatus.SIM_ERROR, (failedPoll T)^[k] m))
        ∧ (((failedPoll T)^[k] m).clock < m.clock + timeout_ms →
          (waitResponse T ["+CPIN:"] (sendAT ["+CPIN?"] ((failedPoll T)^[k] m))).1 = 1 →
          getSimStatus T timeout_ms (k + 1 + fuel) m
            = some (simStatusOf
                (waitResponse T ["READY", "SIM PIN", "SIM PUK", "NOT INSERTED", "NOT READY"]
                  (waitResponse T ["+CPIN:"]
                    (sendAT ["+CPIN?"] ((failedPoll T)^[k] m))).2).1,
              (waitResponse T []
                (waitResponse T ["READY", "SIM PIN", "SIM PUK", "NOT INSERTED", "NOT READY"]
                  (waitResponse T ["+CPIN:"]
                    (sendAT ["+CPIN?"] ((failedPoll T)^[k] m))).2).2).2)))
    ∧ (∀ (T : Transport) (fuel : Nat) (m : Modem),
        getSimStatus T 0 (fuel + 1) m = some (SimStatus.SIM_ERROR, m)) := by
  refine ⟨?_, ?_, ?_⟩
  · intro m0 m e t hc he
    unfold millis
    rw [hc, sub32_elapsed _ _ he]
  · intro T t k fuel m hlt hfail
    have hskip : getSimStatus T t (k + 1 + fuel) m
        = getSimStatusLoop T t (millis m) (fuel + 1) ((failedPoll T)^[k] m) := by
      unfold getSimStatus getSimStatusImpl
      refine loop_skip T t (millis m) fuel k m (fun j hj => ⟨?_, (hfail j hj).2⟩)
      rw [sub32_failedPolls T j k m (by omega) hlt]
      have h1 := (hfail j hj).1
      have h2 := failedPolls_clock T j m
      omega
    have hk := sub32_failedPolls T k k m (le_refl _) hlt
    have hck := failedPolls_clock T k m
    constructor
    · intro hge
      rw [hskip]
      exact loop_exit T t (millis m) fuel _ (by rw [hk]; omega)
    · intro hopen hecho
      rw [hskip]
      exact loop_answer T t (millis m) fuel _ (by rw [hk]; omega) hecho
  · intro T fuel m
    exact loop_exit T 0 (millis m) fuel m (by omega)

/-- Witness for C10: the call is entered 500 ms before the 32-bit counter wraps, with the
default timeout.  The first poll misses the prompt echo; the second loop test happens 1020 ms
after entry, past the wrap, and the call polls again and reports the SIM ready. -/
theorem getSimStatus_deadline_wraparound_witness :
    getSimStatus (bootTransport 1) 10000 (1 + 1 + 0)
        { stream := [], clock := 2 ^ 32 - 500, trace := [] }
      = some (SimStatus.SIM_READY,
          { stream := [], clock := 2 ^ 32 + 580,
            trace := [Event.sendAT "+CPIN?", Event.waitResponse ["+CPIN:"], Event.delay 1000,
              Event.sendAT "+CPIN?", Event.waitResponse ["+CPIN:"],
              Event.waitResponse ["READY", "SIM PIN", "SIM PUK", "NOT INSERTED", "NOT READY"],
              Event.waitResponse []] }) :=
  (getSimStatus_deadline_wraparound.2.1 (bootTransport 1) 10000 1 0
      { stream := [], clock := 2 ^ 32 - 500, trace := [] } (by decide) (by decide)).2
    (by decide) (by decide)

/-- C7: `getOperator` extracts the text between the quotes.  Let `w` be the outcome of the
wait for `+COPS:` that follows the command `+COPS?`.  If `w.index = 1` and the remaining
input is `pre`, a double quote, `name`, a double quote, `post`, with no double quote in `pre`
or `name`, the result is exactly `name`; for the remaining input ` 0,0,"Test Carrier"` and a
line end the result is `Test Carrier`.  If `w.index ≠ 1` the result is empty and the modem is
left as the wait left it: nothing further is read. -/
theorem getOperator_between_quotes (T : Transport) (m : Modem) (pre name post : List Char) :
    (((T.respond ["+COPS:"] { m with trace := m.trace ++ [Event.sendAT "+COPS?"] }).index = 1 →
      (T.respond ["+COPS:"] { m with trace := m.trace ++ [Event.sendAT "+COPS?"] }).rest
        = pre ++ DQUOTE :: (name ++ DQUOTE :: post) →
      DQUOTE ∉ pre → DQUOTE ∉ name → (getOperator T m).1 = name)
    ∧ ((T.respond ["+COPS:"] { m with trace := m.trace ++ [Event.sendAT "+COPS?"] }).index = 1 →
      (T.respond ["+COPS:"] { m with trace := m.trace ++ [Event.sendAT "+COPS?"] }).rest
        = " 0,0,\"Test Carrier\"\r\n".toList →
      (getOperator T m).1 = "Test Carrier".toList)
    ∧ ((T.respond ["+COPS:"] { m with trace := m.trace ++ [Event.sendAT "+COPS?"] }).index ≠ 1 →
      (getOperator T m).1 = []
      ∧ (getOperator T m).2 =
        { stream := (T.respond ["+COPS:"]
            { m with trace := m.trace ++ [Event.sendAT "+COPS?"] }).rest,
          clock := m.clock + (T.respond ["+COPS:"]
            { m with trace := m.trace ++ [Event.sendAT "+COPS?"] }).elapsed,
          trace := m.trace ++ [Event.sendAT "+COPS?", Event.waitResponse ["+COPS:"]] })) := by
  have hgen : ∀ (a b c : List Char),
      (T.respond ["+COPS:"] { m with trace := m.trace ++ [Event.sendAT "+COPS?"] }).index = 1 →
      (T.respond ["+COPS:"] { m with trace := m.trace ++ [Event.sendAT "+COPS?"] }).rest
        = a ++ DQUOTE :: (b ++ DQUOTE :: c) →
      DQUOTE ∉ a → DQUOTE ∉ b → (getOperator T m).1 = b := by
    intro a b c h1 hrest ha hb
    have hw : (waitResponse T ["+COPS:"] (sendAT ["+COPS?"] m)).1 = 1 := by
      simpa [waitResponse, sendAT] using h1
    have hs : (waitResponse T ["+COPS:"] (sendAT ["+COPS?"] m)).2.stream
        = a ++ DQUOTE :: (b ++ DQUOTE :: c) := by
      simpa [waitResponse, sendAT] using hrest
    unfold getOperator getOperatorImpl
    simp only [GF, hw]
    simp only [streamSkipUntil, readStringUntil, hs, dropThrough_split DQUOTE a _ ha,
      takeWhile_ne_split DQUOTE b c hb]
    simp
  refine ⟨hgen pre name post, ?_, ?_⟩
  · intro h1 hrest
    exact hgen " 0,0,".toList "Test Carrier".toList "\r\n".toList h1 hrest
      (by decide) (by decide)
  · intro h1
    have hw : (waitResponse T ["+COPS:"] (sendAT ["+COPS?"] m)).1 ≠ 1 := by
      simpa [waitResponse, sendAT] using h1
    unfold getOperator getOperatorImpl
    simp only [GF]
    rw [if_pos (by simpa using hw)]
    simp [waitResponse, sendAT]

/-- Witness for C7: the reply `+COPS: 0,0,"Test Carrier"` followed by `OK`. -/
theorem getOperator_between_quotes_witness :
    (getOperator (scanTransport ip0)
      (freshModem "\r\n+COPS: 0,0,\"Test Carrier\"\r\n\r\nOK\r\n".toList)).1
      = "Test Carrier".toList :=
  (getOperator_between_quotes (scanTransport ip0)
      (freshModem "\r\n+COPS: 0,0,\"Test Carrier\"\r\n\r\nOK\r\n".toList)
      " 0,0,".toList "Test Carrier".toList "\r\n\r\nOK\r\n".toList).1
    (by decide) (by decide) (by decide) (by decide)

/-- Supporting fact for C8: what `getSimCCID` returns.  When the wait for `+CCID:` returns 1
the result is the rest of the line up to the newline (up to its first NUL), untrimmed; when
the wait returns anything else the result is empty. -/
theorem getSimCCID_result (T : Transport) (m : Modem) :
    ((waitResponse T ["+CCID:"] (sendAT ["+CCID"] m)).1 = 1 →
      (getSimCCID T m).1 = c_str ((waitResponse T ["+CCID:"]
        (sendAT ["+CCID"] m)).2.stream.takeWhile (fun x => x != NL)))
    ∧ ((waitResponse T ["+CCID:"] (sendAT ["+CCID"] m)).1 ≠ 1 → (getSimCCID T m).1 = []) := by
  unfold getSimCCID getSimCCIDImpl
  simp only [GF]
  constructor
  · intro h
    simp [h, readStringUntil]
  · intro h
    simp [h]

/-- C8 (the code departs from the claim): for the reply line `+CCID: 8901260862291477114`
ended by carriage return and line feed, `getSimCCID` returns the rest of the line with its
leading space and its trailing carriage return, which is not the trimmed string. -/
theorem getSimCCID_untrimmed :
    (getSimCCID (scanTransport ip0)
        (freshModem "\r\n+CCID: 8901260862291477114\r\n\r\nOK\r\n".toList)).1
      = " 8901260862291477114\r".toList
    ∧ (getSimCCID (scanTransport ip0)
        (freshModem "\r\n+CCID: 8901260862291477114\r\n\r\nOK\r\n".toList)).1
      ≠ "8901260862291477114".toList
    ∧ trim " 8901260862291477114\r".toList = "8901260862291477114".toList := by
  decide

/-- Supporting fact for C9: the value `getIMEI` returns, as a function of the inbound bytes. -/
theorem getIMEI_value (T : Transport) (m : Modem) :
    (getIMEI T m).1 = trim ((dropThrough NL m.stream).takeWhile (fun x => x != NL)) := by
  simp [getIMEI, getIMEIImpl, streamSkipUntil, readStringUntil, sendAT]

/-- Supporting fact for C9: the value `getIMSI` returns, as a function of the inbound bytes. -/
theorem getIMSI_value (T : Transport) (m : Modem) :
    (getIMSI T m).1 = trim ((dropThrough NL m.stream).takeWhile (fun x => x != NL)) := by
  simp [getIMSI, getIMSIImpl, streamSkipUntil, readStringUntil, sendAT]

/-- C9: `getIMEI` and `getIMSI` each send exactly one query (`+GSN`, `+CIMI`), skip through
the first newline, read up to the next newline and drain one generic terminator.  For each of
the two results `r`: when the inbound bytes are `pre`, newline, `line`, newline, `post` with
no newline in `pre` or `line`, `r` is `line` with a run of whitespace removed at each end;
`r` never starts or ends with a whitespace character; and `r` is empty when the input has no
newline or nothing after its first newline. -/
theorem getIMEI_getIMSI_trimmed_line (T : Transport) (m : Modem) :
    (getIMEI T m).2.trace = m.trace ++ [Event.sendAT "+GSN", Event.streamSkipUntil NL,
        Event.readStringUntil NL, Event.waitResponse []]
    ∧ (getIMSI T m).2.trace = m.trace ++ [Event.sendAT "+CIMI", Event.streamSkipUntil NL,
        Event.readStringUntil NL, Event.waitResponse []]
    ∧ ∀ r ∈ [(getIMEI T m).1, (getIMSI T m).1],
        (∀ pre line post, m.stream = pre ++ NL :: (line ++ NL :: post) → NL ∉ pre → NL ∉ line →
          ∃ a b, line = a ++ r ++ b ∧ (∀ x ∈ a, isspace x = true) ∧ (∀ x ∈ b, isspace x = true))
        ∧ (∀ x, r.head? = some x → isspace x = false)
        ∧ (∀ x, r.getLast? = some x → isspace x = false)
        ∧ (NL ∉ m.stream → r = [])
        ∧ (∀ pre, m.stream = pre ++ [NL] → NL ∉ pre → r = []) := by
  refine ⟨?_, ?_, ?_⟩
  · simp [getIMEI, getIMEIImpl, streamSkipUntil, readStringUntil, sendAT, waitResponse, GF]
  · simp [getIMSI, getIMSIImpl, streamSkipUntil, readStringUntil, sendAT, waitResponse, GF]
  · intro r hr
    have hval : r = trim ((dropThrough NL m.stream).takeWhile (fun x => x != NL)) := by
      simp only [List.mem_cons, List.mem_singleton, List.not_mem_nil, or_false] at hr
      rcases hr with h | h
      · rw [h]; exact getIMEI_value T m
      · rw [h]; exact getIMSI_value T m
    subst hval
    refine ⟨?_, ?_, ?_, ?_, ?_⟩
    · intro pre line post hs hpre hline
      rw [hs, dropThrough_split NL pre _ hpre, takeWhile_ne_split NL line post hline]
      exact trim_split line
    · intro x hx
      exact trim_head _ x hx
    · intro x hx
      exact trim_getLast _ x hx
    · intro hno
      rw [dropThrough_of_not_mem NL _ hno]
      rfl
    · intro pre hs hpre
      rw [hs, dropThrough_split NL pre [] hpre]
      rfl

/-- Witness for C9: the reply to `+CIMI` is a blank line, the line `460001234567890` ended by
carriage return and line feed, then `OK`. -/
theorem getIMEI_getIMSI_trimmed_line_witness :
    ∃ a b, "460001234567890\r".toList
        = a ++ (getIMSI (scanTransport ip0)
            (freshModem "\r\n460001234567890\r\n\r\nOK\r\n".toList)).1 ++ b
      ∧ (∀ x ∈ a, isspace x = true) ∧ (∀ x ∈ b, isspace x = true) :=
  ((getIMEI_getIMSI_trimmed_line (scanTransport ip0)
      (freshModem "\r\n460001234567890\r\n\r\nOK\r\n".toList)).2.2
      (getIMSI (scanTransport ip0) (freshModem "\r\n460001234567890\r\n\r\nOK\r\n".toList)).1
      (by simp)).1
    "\r".toList "460001234567890\r".toList "\r\nOK\r\n".toList (by decide) (by decide)
      (by decide)

end TinyGsm
